import Mathlib

/-!
Shallow embedding of the Filler-Inner template-fill pipeline
(Obsidian plugin, TypeScript sources under `src/`).

Strings are modelled as `List Char` (`Str`); JavaScript string methods
used by the sources (trim, split, replace-first, char-class replace,
startsWith, toISOString post-processing) are embedded as executable
functions on `Str`.  Fallible methods return `Except Str _`, where
`.error` models a thrown exception and `.ok` a normal return.
-/

/-- Strings of the embedded program. -/
abbrev Str := List Char

/-- The double-quote character (U+0022). -/
def quot : Char := Char.ofNat 34

/-- The apostrophe character (U+0027). -/
def apos : Char := Char.ofNat 39

/-- JavaScript `String.prototype.trim`: drop whitespace from both ends. -/
def jsTrim (s : Str) : Str :=
  ((s.dropWhile Char.isWhitespace).reverse.dropWhile Char.isWhitespace).reverse

/-- Remove the first occurrence of `pat` from `s` (JS `s.replace(pat, '')`
with a plain-string pattern, which replaces only the first occurrence). -/
def removeFirst : Str → Str → Str
  | [], _ => []
  | c :: rest, pat =>
    if pat.isPrefixOf (c :: rest) then (c :: rest).drop pat.length
    else c :: removeFirst rest pat

namespace PromptOptimizer

/-- From `promptOptimizer.ts`: the argument passed to
`llmService.generateFilledTemplate` when optimization is enabled
(`Please optimize this prompt to be more specific and detailed: "<p>"`). -/
def optimizeRequest (userPrompt : Str) : Str :=
  "Please optimize this prompt to be more specific and detailed: ".toList
    ++ [quot] ++ userPrompt ++ [quot]

/-- Leftmost match of the regex `/"([^"]+)"/`: the first position where a
double quote is followed by a non-empty run of non-quote characters and a
closing double quote; returns the captured run. -/
def findQuoted : Str → Option Str
  | [] => none
  | c :: rest =>
    if c = quot then
      let run := rest.takeWhile (fun d => ¬ d = quot)
      if run.length < rest.length ∧ ¬ run = [] then some run
      else findQuoted rest
    else findQuoted rest

/-- JS `response.split('\n')[0]`. -/
def firstParagraph (s : Str) : Str := s.takeWhile (fun c => ¬ c = '\n')

/-- Case-insensitive prefix test (the regex `i` flag over the fixed
alternatives, which contain only ASCII letters, spaces and an apostrophe). -/
def matchesPrefixCI (pat s : Str) : Bool :=
  (pat.map Char.toLower).isPrefixOf (s.map Char.toLower)

/-- The boilerplate lead-in alternatives of the regex
`/^(Here's|This is|I've created|Here is).*?:/i`, in source order. -/
def leadInPrefixes : List Str :=
  [ "Here".toList ++ [apos, 's'],
    "This is".toList,
    "I".toList ++ [apos] ++ "ve created".toList,
    "Here is".toList ]

/-- Drop characters through the first `':'`; `none` when there is no `':'`
(the regex then fails to match and the string is left unchanged). -/
def dropThroughColon : Str → Option Str
  | [] => none
  | c :: rest => if c = ':' then some rest else dropThroughColon rest

/-- JS `firstParagraph.replace(/^(Here's|This is|I've created|Here is).*?:/i, '')`:
if the line starts (case-insensitively) with one of the fixed lead-ins and a
colon occurs at or after the end of that lead-in, remove everything through
the first such colon; otherwise leave the line unchanged.  At most one
alternative can match, since the alternatives pairwise disagree on some
position of any common prefix. -/
def stripLeadIn (s : Str) : Str :=
  match leadInPrefixes.find? (fun p => matchesPrefixCI p s) with
  | none => s
  | some p =>
    match dropThroughColon (s.drop p.length) with
    | none => s
    | some rest => rest

/-- `PromptOptimizer.cleanResponse` from `promptOptimizer.ts`. -/
def cleanResponse (response : Str) : Str :=
  match findQuoted response with
  | some q => jsTrim q
  | none => jsTrim (stripLeadIn (firstParagraph response))

/-- `PromptOptimizer.optimize` from `promptOptimizer.ts`.  The LLM service's
`generateFilledTemplate` is passed in as `llm` (first argument: template
content, second: user prompt — the source passes the optimization request as
the template-content argument and the empty string as the prompt);
`Except.error` models a rejected promise, which the source catches,
falling back to the original prompt.  The `templateContent` parameter is
accepted but, as in the source, never used in the computation. -/
def optimize (useOptimization : Bool) (llm : Str → Str → Except Str Str)
    (userPrompt templateContent : Str) : Str :=
  if useOptimization = false then userPrompt
  else
    match llm (optimizeRequest userPrompt) [] with
    | Except.error _ => userPrompt
    | Except.ok s => cleanResponse s

/-- `PromptOptimizer.combine` from `promptOptimizer.ts`: when either
argument is empty (falsy), return `templateContent || optimizedPrompt || ''`;
otherwise return the trimmed prompt. -/
def combine (templateContent optimizedPrompt : Str) : Str :=
  if templateContent = [] ∨ optimizedPrompt = [] then
    (if ¬ templateContent = [] then templateContent else optimizedPrompt)
  else jsTrim optimizedPrompt

end PromptOptimizer

/-- Token counts of an `AIResponse` (`types/aiModels.ts`). -/
structure AIResponseTokens where
  input : Nat
  output : Nat
  total : Nat
deriving DecidableEq

/-- `AIResponse` from `types/aiModels.ts`: `data` and `error` are optional
fields, absent (`none`) when not set by the adapter. -/
structure AIResponse where
  success : Bool
  data : Option Str
  error : Option Str
  tokens : AIResponseTokens
deriving DecidableEq

namespace OpenRouterAdapter

/-- One element of the response's `choices` array; `text` is `none` when the
field is missing. -/
structure ORChoice where
  text : Option Str
deriving DecidableEq

/-- The response's optional `usage` object; each count is `none` when the
field is missing. -/
structure ORUsage where
  prompt_tokens : Option Nat
  completion_tokens : Option Nat
  total_tokens : Option Nat
deriving DecidableEq

/-- The JSON payload shape the adapter reads: `choices` is `none` when the
field is missing from the payload. -/
structure ORPayload where
  choices : Option (List ORChoice)
  usage : Option ORUsage
deriving DecidableEq

/-- An HTTP response as seen through Obsidian's `requestUrl`: a status code
and the parsed JSON body; `json = .error m` models a body that fails to
parse (accessing it throws with message `m`). -/
structure NetResponse where
  status : Nat
  json : Except Str ORPayload

/-- Outcome of the single `requestUrl` network call issued for this request:
`.error m` models a transport failure (the promise rejects with message
`m`), `.ok` a delivered HTTP response. -/
abbrev NetOutcome := Except Str NetResponse

/-- The failure result built in the adapter's `catch` block:
`{success:false, error: error.message || 'Unknown error occurred.', tokens: 0}`. -/
def failureResponse (m : Str) : AIResponse :=
  { success := false
    data := none
    error := some (if m = [] then "Unknown error occurred.".toList else m)
    tokens := ⟨0, 0, 0⟩ }

/-- `OpenRouterAdapter.generateResponse` from `adapters/openrouter.ts`.
The configured state is the stored `apiKey`; `net` is the environment's
outcome for the one network call.  `Except.error` models a thrown
exception escaping the method; `Except.ok` a normally returned
`AIResponse`.  The guard `if (!this.apiKey) throw ...` sits *before* the
`try`, so an empty key throws; inside the `try`, a non-200 status, a
missing/empty `choices` array, a malformed payload and a transport error
are all caught and converted to a failure result. -/
def generateResponse (apiKey : Str) (_prompt : Str) (net : NetOutcome) :
    Except Str AIResponse :=
  if apiKey = [] then Except.error ("OpenRouter API key is not configured.".toList)
  else Except.ok <|
    match net with
    | Except.error m => failureResponse m
    | Except.ok resp =>
      if ¬ resp.status = 200 then
        failureResponse ("OpenRouter API Error: ".toList ++ (Nat.repr resp.status).toList)
      else
        match resp.json with
        | Except.error m => failureResponse m
        | Except.ok payload =>
          match payload.choices with
          | none => failureResponse ("No choices found in OpenRouter response.".toList)
          | some [] => failureResponse ("No choices found in OpenRouter response.".toList)
          | some (c :: _) =>
            { success := true
              data := some (c.text.getD [])
              error := none
              tokens :=
                { input := ((payload.usage.map ORUsage.prompt_tokens).join).getD 0
                  output := ((payload.usage.map ORUsage.completion_tokens).join).getD 0
                  total := ((payload.usage.map ORUsage.total_tokens).join).getD 0 } }

/-- True exactly on the remote-failure cases the adapter converts to a
failure result: transport error, non-200 status, malformed payload,
missing or empty `choices`. -/
def remoteFailure : NetOutcome → Bool
  | Except.error _ => true
  | Except.ok resp =>
    if ¬ resp.status = 200 then true
    else
      match resp.json with
      | Except.error _ => true
      | Except.ok payload =>
        match payload.choices with
        | none => true
        | some [] => true
        | some (_ :: _) => false

end OpenRouterAdapter

namespace LLMService

/-- The structured prompt built by `LLMService.generateFilledTemplate`
(`llmService.ts`), delimiting the template body and the instruction block. -/
def finalPrompt (templateContent userPrompt : Str) : Str :=
  "Here is a template to fill out:\n---BEGIN TEMPLATE---\n".toList
    ++ templateContent
    ++ "\n---END TEMPLATE---\n\nUsing these detailed instructions:\n".toList
    ++ userPrompt
    ++ "\n\nPlease fill out the template above following these instructions. Preserve the template".toList
    ++ [apos]
    ++ "s structure and formatting while incorporating the details from the instructions.".toList

/-- `LLMService.generateFilledTemplate` from `llmService.ts`.  The active
adapter is `none` when `initializeAdapter` left it null (unknown or
unimplemented provider); otherwise `some f`, where `f` maps the sent prompt
to the adapter call's outcome (`.error` = the adapter itself threw).
Inside the `try`, a result with `success` false or falsy `data` raises
`response.error || 'Failed to generate response'`, which the `catch`
rewraps as a generation error; otherwise the trimmed text is returned. -/
def generateFilledTemplate (adapter : Option (Str → Except Str AIResponse))
    (templateContent userPrompt : Str) : Except Str Str :=
  match adapter with
  | none => Except.error ("LLM Adapter is not initialized.".toList)
  | some f =>
    match f (finalPrompt templateContent userPrompt) with
    | Except.error e => Except.error ("Failed to generate content: ".toList ++ e)
    | Except.ok r =>
      if r.success = false ∨ r.data.getD [] = [] then
        Except.error ("Failed to generate content: ".toList ++
          (if (r.error.getD []) = [] then "Failed to generate response".toList
           else r.error.getD []))
      else Except.ok (jsTrim (r.data.getD []))

end LLMService

/-- An Obsidian `TFile` as used by the template manager: vault-relative
`path`, base `name`, `extension`, and modification time (`stat.mtime`). -/
structure MTFile where
  path : Str
  name : Str
  extension : Str
  mtime : Nat
deriving DecidableEq

/-- A vault entry: a `TFile` or a `TFolder` with its ordered children. -/
inductive VEntry where
  | file (f : MTFile)
  | folder (children : List VEntry)

/-- A `Template` cache entry (`types/index.ts`): path, display name, the
underlying file, and its modification time. -/
structure Template where
  path : Str
  name : Str
  file : MTFile
  mtime : Nat
deriving DecidableEq

/-- The template cache, a JS `Map` in insertion order. -/
abbrev Cache := List (Str × Template)

/-- JS `Map.get`. -/
def cacheGet (c : Cache) (k : Str) : Option Template :=
  (c.find? (fun e => e.1 = k)).map (fun e => e.2)

/-- JS `Map.set`: replace in place when the key is present, append otherwise. -/
def cacheSet : Cache → Str → Template → Cache
  | [], k, v => [(k, v)]
  | e :: rest, k, v => if e.1 = k then (k, v) :: rest else e :: cacheSet rest k v

/-- The cleanup loop after a scan: delete every cache entry whose key is not
in `seen` (iterating a JS `Map` while deleting unvisited entries keeps
exactly the entries whose keys are retained). -/
def cacheCleanup (c : Cache) (seen : List Str) : Cache :=
  c.filter (fun e => e.1 ∈ seen)

/-- JS `Array.from(map.values())`, in insertion order. -/
def cacheValues (c : Cache) : List Template :=
  c.map (fun e => e.2)

namespace TemplateManager

/-- `isTemplate` from `types/index.ts`: extension equals the fixed string
`md` and the path starts with the fixed prefix `templates/`. -/
def isTemplate (f : MTFile) : Bool :=
  f.extension = "md".toList ∧ "templates/".toList.isPrefixOf f.path

/-- `TemplateManager.hasValidExtension`: extension equals the fixed `md`. -/
def hasValidExtension (f : MTFile) : Bool :=
  f.extension = "md".toList

/-- `TemplateManager.isValidTemplate`. -/
def isValidTemplate (f : MTFile) : Bool :=
  isTemplate f && hasValidExtension f

/-- `TemplateManager.formatTemplateName`: remove the first occurrence of
`.md` anywhere in the filename, split on `-`, uppercase each word's first
character, join with single spaces. -/
def formatTemplateName (filename : Str) : Str :=
  List.intercalate (" ".toList)
    (((removeFirst filename (".md".toList)).splitOn '-').map
      (fun word =>
        match word with
        | [] => []
        | c :: rest => Char.toUpper c :: rest))

/-- `TemplateManager.createTemplate`. -/
def createTemplate (f : MTFile) : Template :=
  { path := f.path
    name := formatTemplateName f.name
    file := f
    mtime := f.mtime }

/-- `TemplateManager.scanFolder`, recursing over a folder's children in
order; the accumulator is the pair of the `currentTemplates` path set (in
insertion order) and the cache being mutated. -/
def scanEntries : List VEntry → List Str × Cache → List Str × Cache
  | [], acc => acc
  | VEntry.file f :: rest, (seen, c) =>
    if isValidTemplate f then
      scanEntries rest (seen ++ [f.path], cacheSet c f.path (createTemplate f))
    else scanEntries rest (seen, c)
  | VEntry.folder cs :: rest, acc => scanEntries rest (scanEntries cs acc)
termination_by l _ => sizeOf l
decreasing_by all_goals (simp_wf <;> omega)

/-- The valid template files of a folder tree, in the order the recursive
walk visits them. -/
def validFiles : List VEntry → List MTFile
  | [] => []
  | VEntry.file f :: rest =>
    (if isValidTemplate f then [f] else []) ++ validFiles rest
  | VEntry.folder cs :: rest => validFiles cs ++ validFiles rest
termination_by l => sizeOf l
decreasing_by all_goals (simp_wf <;> omega)

/-- `TemplateManager.scanTemplates`: `lookup` is the vault's entry at the
configured templates path (`getAbstractFileByPath`).  When it is not a
folder, the scan is a no-op leaving the cache untouched; otherwise the
walk updates the cache and the cleanup pass deletes unseen paths. -/
def scanTemplates (lookup : Option VEntry) (c : Cache) : Cache :=
  match lookup with
  | some (VEntry.folder cs) =>
    let res := scanEntries cs ([], c)
    cacheCleanup res.2 res.1
  | _ => c

/-- The scan throttle interval (`scanInterval = 5000` ms). -/
def scanInterval : Nat := 5000

/-- The mutable state of a `TemplateManager`: the cache and `lastScanTime`. -/
structure TMState where
  templateCache : Cache
  lastScanTime : Nat
deriving DecidableEq

/-- `TemplateManager.updateTemplatesCacheIfNeeded`: rescan only when
`now - lastScanTime > scanInterval` (on `Nat`, truncated subtraction
agrees with the JS comparison: both are false when `now < lastScanTime`). -/
def updateTemplatesCacheIfNeeded (st : TMState) (now : Nat)
    (lookup : Option VEntry) : TMState :=
  if scanInterval < now - st.lastScanTime then
    { templateCache := scanTemplates lookup st.templateCache, lastScanTime := now }
  else st

/-- `TemplateManager.getTemplates`: refresh if stale, then return the
cache's values; the second component is the manager's state after the call. -/
def getTemplates (st : TMState) (now : Nat) (lookup : Option VEntry) :
    List Template × TMState :=
  let st' := updateTemplatesCacheIfNeeded st now lookup
  (cacheValues st'.templateCache, st')

end TemplateManager

/-- A vault node as the file service sees it: a folder, or a file with its
content. -/
inductive VNode where
  | vfolder
  | vfile (content : Str)
deriving DecidableEq

/-- The vault as a path-indexed store, in creation order. -/
abbrev Vault := List (Str × VNode)

/-- `vault.getAbstractFileByPath`. -/
def vaultGet (v : Vault) (p : Str) : Option VNode :=
  (v.find? (fun e => e.1 = p)).map (fun e => e.2)

/-- `vault.createFolder` / `vault.create`: record a new node. -/
def vaultAdd (v : Vault) (p : Str) (n : VNode) : Vault :=
  v ++ [(p, n)]

namespace FileService

/-- The timestamp string: `new Date().toISOString().replace(/[:.]/g, '-')`
applied to the ISO-8601 rendering `nowIso` of the current time — every
`':'` and `'.'` becomes `'-'`. -/
def timestampOf (nowIso : Str) : Str :=
  nowIso.map (fun c => if c = ':' ∨ c = '.' then '-' else c)

/-- `FileService.createFilledFile` from `fileService.ts`.  The stored
configuration is `outputPath` (falling back to the vault root's path when
empty) and `templateExtension`; `nowIso` is the ISO rendering of the call's
clock reading.  Folder resolution: an existing folder is used; a missing
node is created (creation modelled as succeeding); a file occupying the
folder path makes `createFolder` throw, which is rethrown.  The
already-exists check runs against the exact computed path before any
write. -/
def createFilledFile (vault : Vault) (outputPath rootPath templateExtension : Str)
    (nowIso : Str) (template : Template) (content : Str) : Except Str Vault :=
  let folderPath := if ¬ outputPath = [] then outputPath else rootPath
  let write : Vault → Except Str Vault := fun vault1 =>
    let fileName := template.name ++ "-".toList ++ timestampOf nowIso
      ++ ".".toList ++ templateExtension
    let filePath := folderPath ++ "/".toList ++ fileName
    match vaultGet vault1 filePath with
    | some _ => Except.error ("File already exists: ".toList ++ filePath)
    | none => Except.ok (vaultAdd vault1 filePath (VNode.vfile content))
  match vaultGet vault folderPath with
  | some VNode.vfolder => write vault
  | some (VNode.vfile _) => Except.error ("Folder creation failed".toList)
  | none => write (vaultAdd vault folderPath VNode.vfolder)

end FileService

/-- The modal's `ProcessingStatus` enum (`templateModal.ts`). -/
inductive ProcessingStatus where
  | IDLE
  | PROCESSING
  | COMPLETE
  | ERROR
deriving DecidableEq

namespace TemplateModal

/-- Observable state of one modal session: the processing status, whether a
template is selected, and counters for the side effects the claim counts —
generation calls started and output files written. -/
structure ModalState where
  status : ProcessingStatus
  templateSelected : Bool
  gens : Nat
  writes : Nat
deriving DecidableEq

/-- Events of one session: a click on the submit button, and the completion
(successful or failed) of the in-flight generate-and-write sequence. -/
inductive MEvent where
  | submit
  | complete (success : Bool)
deriving DecidableEq

/-- One step of the session's event loop, from the submit click handler in
`templateModal.ts`.  A click with no template selected or with status
`PROCESSING` only shows a notice and returns; otherwise the handler sets
`PROCESSING` and starts the generation (all before its first suspension
point, so a later click during the same flight sees `PROCESSING`).
Completion of the flight writes the output on success (status `COMPLETE`,
then `IDLE` in the `finally`), or fails (status `ERROR`, then `IDLE`). -/
def modalStep (st : ModalState) : MEvent → ModalState
  | MEvent.submit =>
    if st.templateSelected = false ∨ st.status = ProcessingStatus.PROCESSING then st
    else { st with status := ProcessingStatus.PROCESSING, gens := st.gens + 1 }
  | MEvent.complete success =>
    if st.status = ProcessingStatus.PROCESSING then
      if success then
        { st with status := ProcessingStatus.IDLE, writes := st.writes + 1 }
      else { st with status := ProcessingStatus.IDLE }
    else st

/-- Run a session from a state through a list of events. -/
def runModal (st : ModalState) (evts : List MEvent) : ModalState :=
  evts.foldl modalStep st

end TemplateModal

/-! Concrete fixtures used by witnesses and counterexamples. -/

/-- The model reply `Here's a prompt: "Write a haiku about rain"`. -/
def heresReply : Str :=
  "Here".toList ++ [apos] ++ "s a prompt: ".toList ++ [quot]
    ++ "Write a haiku about rain".toList ++ [quot]

/-- An LLM-service stand-in whose generation call always fails (rejects). -/
def llmFail : Str → Str → Except Str Str := fun _ _ => Except.error []

/-- A delivered, well-formed 200 response with one choice. -/
def netOkSample : OpenRouterAdapter.NetOutcome :=
  Except.ok ⟨200, Except.ok ⟨some [⟨some ("hi".toList)⟩], none⟩⟩

/-- A template file whose extension `txt` is not the hardcoded `md`. -/
def txtFile : MTFile :=
  { path := "templates/a.txt".toList, name := "a.txt".toList
    extension := "txt".toList, mtime := 0 }

/-- A markdown template file under `templates/`. -/
def mdFileA : MTFile :=
  { path := "templates/a.md".toList, name := "a.md".toList
    extension := "md".toList, mtime := 0 }

/-- All template files of a folder tree (before validity filtering), in walk
order. -/
def allFiles : List VEntry → List MTFile
  | [] => []
  | VEntry.file f :: rest => f :: allFiles rest
  | VEntry.folder cs :: rest => allFiles cs ++ allFiles rest
termination_by l => sizeOf l
decreasing_by all_goals (simp_wf <;> omega)

/-- An idle modal session with a template selected and no side effects yet. -/
def idleReady : TemplateModal.ModalState :=
  { status := ProcessingStatus.IDLE, templateSelected := true, gens := 0, writes := 0 }

/-- An adapter stand-in returning a successful result with text `" hi "`. -/
def adapterOkSample : Str → Except Str AIResponse :=
  fun _ => Except.ok ⟨true, some (" hi ".toList), none, ⟨0, 0, 0⟩⟩

/-- The output path the claim describes for `createFilledFile`:
`{folder}/{templateDisplayName}-{ISO timestamp with ':' and '.' replaced
by '-'}.{extension}`, the folder being the configured output path or the
vault root when that is empty. -/
def filePathOf (outputPath rootPath ext nowIso : Str) (tpl : Template) : Str :=
  (if ¬ outputPath = [] then outputPath else rootPath) ++ "/".toList
    ++ (tpl.name ++ "-".toList ++ FileService.timestampOf nowIso
        ++ ".".toList ++ ext)

/-- A vault holding just the output folder `out`. -/
def outVault : Vault := [("out".toList, VNode.vfolder)]

/-- A concrete template record named `Welcome`. -/
def welcomeTpl : Template :=
  { path := "templates/welcome.md".toList, name := "Welcome".toList
    file := mdFileA, mtime := 0 }

/-- A concrete ISO-8601 clock reading. -/
def isoSample : Str := "2024-01-01T10:20:30.400Z".toList

/-- A vault lookup finding a templates folder containing `templates/a.md`. -/
def lkA : Option VEntry := some (VEntry.folder [VEntry.file mdFileA])

/-- A vault lookup finding an empty templates folder (the file deleted). -/
def lkEmpty : Option VEntry := some (VEntry.folder [])

/-! Helper lemmas. -/

theorem takeWhile_no_quot : ∀ (q : Str) (b : Str), quot ∉ q →
    (q ++ quot :: b).takeWhile (fun d => ¬ d = quot) = q := by
  intro q b h
  induction q with
  | nil => simp [List.takeWhile]
  | cons c rest ih =>
    have hc : ¬ c = quot := fun e => h (by simp [e])
    have hr : quot ∉ rest := fun hm => h (List.mem_cons_of_mem _ hm)
    have ih2 := ih hr
    simp only [decide_not] at ih2
    simp only [List.cons_append, List.takeWhile_cons, decide_not, hc]
    simp [hc, ih2]

theorem findQuoted_decomp (q b : Str) (hq : quot ∉ q) (hne : ¬ q = []) :
    ∀ a : Str, quot ∉ a →
      PromptOptimizer.findQuoted (a ++ quot :: (q ++ quot :: b)) = some q := by
  intro a ha
  induction a with
  | nil =>
    simp only [List.nil_append, PromptOptimizer.findQuoted]
    rw [takeWhile_no_quot q b hq]
    have hlen : q.length < (q ++ quot :: b).length := by
      simp [List.length_append]
    simp [hlen, hne]
  | cons c rest ih =>
    have hc : ¬ c = quot := fun e => ha (by simp [e])
    have hr : quot ∉ rest := fun hm => ha (List.mem_cons_of_mem _ hm)
    simp only [List.cons_append, PromptOptimizer.findQuoted]
    rw [if_neg hc]
    exact ih hr

theorem findQuoted_none : ∀ s : Str, quot ∉ s →
    PromptOptimizer.findQuoted s = none := by
  intro s h
  induction s with
  | nil => rfl
  | cons c rest ih =>
    have hc : ¬ c = quot := fun e => h (by simp [e])
    have hr : quot ∉ rest := fun hm => h (List.mem_cons_of_mem _ hm)
    simp only [PromptOptimizer.findQuoted]
    rw [if_neg hc]
    exact ih hr

/-! Claim theorems. -/

/-- C5 counterexample: `combine` does not return the instruction verbatim —
with a non-empty template, the instruction `"  x  "` comes back trimmed to
`"x"`. -/
theorem combine_not_verbatim :
    ¬ PromptOptimizer.combine ("T".toList) ("  x  ".toList) = "  x  ".toList := by
  decide

/-- C5 (amended): when both the template content and the instruction are
non-empty, `combine` returns the instruction with leading and trailing
whitespace removed; when the template content is empty it returns the
instruction verbatim, and when the instruction is empty it returns the
template content; it performs no template substitution. -/
theorem combine_spec (tc op : Str) :
    (¬ tc = [] → ¬ op = [] → PromptOptimizer.combine tc op = jsTrim op) ∧
    PromptOptimizer.combine [] op = op ∧
    PromptOptimizer.combine tc [] = tc := by
  refine ⟨fun h1 h2 => ?_, ?_, ?_⟩
  · simp [PromptOptimizer.combine, h1, h2]
  · by_cases hop : op = [] <;> simp [PromptOptimizer.combine, hop]
  · by_cases htc : tc = [] <;> simp [PromptOptimizer.combine, htc]

/-- Witness for C5's amended theorem at non-empty concrete arguments. -/
theorem combine_spec_witness :
    (¬ ("T".toList : Str) = [] ∧ ¬ ("  x  ".toList : Str) = []) ∧
    PromptOptimizer.combine ("T".toList) ("  x  ".toList) = jsTrim ("  x  ".toList) :=
  ⟨⟨by decide, by decide⟩,
    (combine_spec ("T".toList) ("  x  ".toList)).1 (by decide) (by decide)⟩

/-- C6: with optimization disabled, `optimize` is the identity on the user
prompt; with optimization enabled, a failing (throwing) generation call
makes `optimize` fall back to the original prompt unchanged. -/
theorem optimize_identity_fallback (llm : Str → Str → Except Str Str)
    (up tc : Str) :
    PromptOptimizer.optimize false llm up tc = up ∧
    (∀ e, llm (PromptOptimizer.optimizeRequest up) [] = Except.error e →
      PromptOptimizer.optimize true llm up tc = up) := by
  refine ⟨rfl, fun e he => ?_⟩
  simp [PromptOptimizer.optimize, he]

/-- Witness for C6 with a concretely failing generation call. -/
theorem optimize_identity_fallback_witness :
    PromptOptimizer.optimize false llmFail ("p".toList) ("t".toList) = "p".toList ∧
    (llmFail (PromptOptimizer.optimizeRequest ("p".toList)) [] = Except.error [] ∧
      PromptOptimizer.optimize true llmFail ("p".toList) ("t".toList) = "p".toList) :=
  ⟨(optimize_identity_fallback llmFail ("p".toList) ("t".toList)).1,
    rfl,
    (optimize_identity_fallback llmFail ("p".toList) ("t".toList)).2 [] rfl⟩

/-- C9: `cleanResponse` extracts and trims the first quoted substring when
one exists (here: when the reply decomposes around its first double quote
into a properly closed, non-empty quoted run); with no quotes it takes the
first line and strips the boilerplate lead-in through the first colon.  In
particular the reply `Here's a prompt: "Write a haiku about rain"` yields
`Write a haiku about rain`, and `This is the plan: do X then Y` yields
`do X then Y`. -/
theorem cleanResponse_spec :
    (∀ a q b : Str, quot ∉ a → quot ∉ q → ¬ q = [] →
      PromptOptimizer.cleanResponse (a ++ quot :: (q ++ quot :: b)) = jsTrim q) ∧
    (∀ s : Str, quot ∉ s →
      PromptOptimizer.cleanResponse s
        = jsTrim (PromptOptimizer.stripLeadIn (PromptOptimizer.firstParagraph s))) ∧
    PromptOptimizer.cleanResponse heresReply = "Write a haiku about rain".toList ∧
    PromptOptimizer.cleanResponse ("This is the plan: do X then Y".toList)
      = "do X then Y".toList := by
  refine ⟨fun a q b ha hq hne => ?_, fun s h => ?_, by decide, by decide⟩
  · simp [PromptOptimizer.cleanResponse, findQuoted_decomp q b hq hne a ha]
  · simp [PromptOptimizer.cleanResponse, findQuoted_none s h]

/-- Witness for C9's quantified clauses at concrete replies. -/
theorem cleanResponse_spec_witness :
    PromptOptimizer.cleanResponse
        ("reply: ".toList ++ quot :: (" hi ".toList ++ quot :: " tail".toList))
      = jsTrim (" hi ".toList) ∧
    PromptOptimizer.cleanResponse ("no quotes here".toList)
      = jsTrim (PromptOptimizer.stripLeadIn
          (PromptOptimizer.firstParagraph ("no quotes here".toList))) :=
  ⟨cleanResponse_spec.1 ("reply: ".toList) (" hi ".toList) (" tail".toList)
      (by decide) (by decide) (by decide),
    cleanResponse_spec.2.1 ("no quotes here".toList) (by decide)⟩

/-- C10: a template's display name is computed from the file's base name
alone (two files with the same name get the same display name, whatever
their folders), by removing the first occurrence of `.md` anywhere in the
name, splitting on `-`, uppercasing each word's first character and joining
with single spaces — witnessed on concrete names, including one where the
first `.md` occurs mid-name. -/
theorem formatTemplateName_spec :
    (∀ f g : MTFile, f.name = g.name →
      (TemplateManager.createTemplate f).name = (TemplateManager.createTemplate g).name) ∧
    TemplateManager.formatTemplateName ("weekly-report.md".toList)
      = "Weekly Report".toList ∧
    TemplateManager.formatTemplateName ("my.mdx-meeting-notes.md".toList)
      = "Myx Meeting Notes.md".toList := by
  refine ⟨fun f g h => ?_, by decide, by decide⟩
  simp [TemplateManager.createTemplate, h]

/-- Witness for C10's name-independence clause: same base name in different
folders, same display name. -/
theorem formatTemplateName_spec_witness :
    (TemplateManager.createTemplate
        ⟨"templates/x/daily-note.md".toList, "daily-note.md".toList, "md".toList, 1⟩).name
      = (TemplateManager.createTemplate
        ⟨"templates/y/daily-note.md".toList, "daily-note.md".toList, "md".toList, 2⟩).name :=
  formatTemplateName_spec.1 _ _ rfl

/-- C1 counterexample: with an empty API key (an unconfigured adapter) and a
failing transport, `generateResponse` throws a configuration error instead
of returning a failure result — the claim's "regardless of the adapter's
configuration state" fails. -/
theorem openRouter_throws_unconfigured :
    OpenRouterAdapter.generateResponse [] ("p".toList)
        (Except.error ("network down".toList))
      = Except.error ("OpenRouter API key is not configured.".toList) := rfl

/-- C1 (amended): whenever the stored API key is non-empty,
`generateResponse` returns normally with a result object; every remote
failure (transport error, non-2xx status, malformed payload, missing or
empty `choices`) is converted into a `success = false` result carrying an
error message, and a well-formed 200 response yields a `success = true`
result; with an empty API key the adapter instead throws a configuration
error (see the counterexample). -/
theorem openRouter_no_throw_when_key (apiKey prompt : Str)
    (net : OpenRouterAdapter.NetOutcome) (h : ¬ apiKey = []) :
    ∃ r : AIResponse,
      OpenRouterAdapter.generateResponse apiKey prompt net = Except.ok r ∧
      (OpenRouterAdapter.remoteFailure net = true →
        r.success = false ∧ ¬ r.error = none) ∧
      (OpenRouterAdapter.remoteFailure net = false →
        r.success = true ∧ ¬ r.data = none) := by
  rcases net with m | ⟨status, json⟩
  · refine ⟨OpenRouterAdapter.failureResponse m, ?_, fun _ => ⟨rfl, ?_⟩, fun hf => ?_⟩
    · simp [OpenRouterAdapter.generateResponse, h]
    · simp [OpenRouterAdapter.failureResponse]
    · simp [OpenRouterAdapter.remoteFailure] at hf
  · by_cases hs : status = 200
    · subst hs
      rcases json with m | ⟨choices, usage⟩
      · refine ⟨OpenRouterAdapter.failureResponse m, ?_, fun _ => ⟨rfl, ?_⟩, fun hf => ?_⟩
        · simp [OpenRouterAdapter.generateResponse, h]
        · simp [OpenRouterAdapter.failureResponse]
        · simp [OpenRouterAdapter.remoteFailure] at hf
      · rcases choices with _ | l
        · refine ⟨OpenRouterAdapter.failureResponse
              ("No choices found in OpenRouter response.".toList),
            ?_, fun _ => ⟨rfl, ?_⟩, fun hf => ?_⟩
          · simp [OpenRouterAdapter.generateResponse, h]
          · simp [OpenRouterAdapter.failureResponse]
          · simp [OpenRouterAdapter.remoteFailure] at hf
        · rcases l with _ | ⟨c, cs⟩
          · refine ⟨OpenRouterAdapter.failureResponse
                ("No choices found in OpenRouter response.".toList),
              ?_, fun _ => ⟨rfl, ?_⟩, fun hf => ?_⟩
            · simp [OpenRouterAdapter.generateResponse, h]
            · simp [OpenRouterAdapter.failureResponse]
            · simp [OpenRouterAdapter.remoteFailure] at hf
          · refine ⟨{ success := true, data := some (c.text.getD []), error := none
                      tokens :=
                        { input := ((usage.map OpenRouterAdapter.ORUsage.prompt_tokens).join).getD 0
                          output := ((usage.map OpenRouterAdapter.ORUsage.completion_tokens).join).getD 0
                          total := ((usage.map OpenRouterAdapter.ORUsage.total_tokens).join).getD 0 } },
              ?_, fun ht => ?_, fun _ => ⟨rfl, ?_⟩⟩
            · simp [OpenRouterAdapter.generateResponse, h]
            · simp [OpenRouterAdapter.remoteFailure] at ht
            · simp
    · refine ⟨OpenRouterAdapter.failureResponse
          ("OpenRouter API Error: ".toList ++ (Nat.repr status).toList),
        ?_, fun _ => ⟨rfl, ?_⟩, fun hf => ?_⟩
      · simp [OpenRouterAdapter.generateResponse, h, hs]
      · simp [OpenRouterAdapter.failureResponse]
      · simp [OpenRouterAdapter.remoteFailure, hs] at hf

/-- Witness for C1's amended theorem: a configured key with a well-formed
200 response. -/
theorem openRouter_no_throw_when_key_witness :
    ¬ ("k".toList : Str) = [] ∧
    ∃ r : AIResponse,
      OpenRouterAdapter.generateResponse ("k".toList) ("p".toList) netOkSample
        = Except.ok r ∧
      (OpenRouterAdapter.remoteFailure netOkSample = true →
        r.success = false ∧ ¬ r.error = none) ∧
      (OpenRouterAdapter.remoteFailure netOkSample = false →
        r.success = true ∧ ¬ r.data = none) :=
  ⟨by decide, openRouter_no_throw_when_key ("k".toList) ("p".toList) netOkSample (by decide)⟩

/-- C2: `generateFilledTemplate` raises the `adapter not initialized` error
when the adapter is null; with an adapter whose call returns a result, it
raises a generation error exactly when that result has `success` false or
empty text, and otherwise returns the result text trimmed of leading and
trailing whitespace. -/
theorem generateFilledTemplate_spec
    (adapter : Option (Str → Except Str AIResponse)) (tc up : Str) :
    (adapter = none →
      LLMService.generateFilledTemplate adapter tc up
        = Except.error ("LLM Adapter is not initialized.".toList)) ∧
    (∀ f r, adapter = some f →
      f (LLMService.finalPrompt tc up) = Except.ok r →
      ((r.success = false ∨ r.data.getD [] = []) →
        ∃ e, LLMService.generateFilledTemplate adapter tc up = Except.error e) ∧
      (r.success = true → ¬ r.data.getD [] = [] →
        LLMService.generateFilledTemplate adapter tc up
          = Except.ok (jsTrim (r.data.getD [])))) := by
  constructor
  · intro h; subst h; rfl
  · intro f r hA hf
    subst hA
    constructor
    · intro hc
      refine ⟨"Failed to generate content: ".toList ++
        (if (r.error.getD []) = [] then "Failed to generate response".toList
          else r.error.getD []), ?_⟩
      simp only [LLMService.generateFilledTemplate, hf]
      rw [if_pos hc]
    · intro h1 h2
      have hcond : ¬ (r.success = false ∨ r.data.getD [] = []) := by
        simp [h1, h2]
      simp only [LLMService.generateFilledTemplate, hf]
      rw [if_neg hcond]

/-- Witness for C2: the null-adapter error and the trimmed success path at
concrete inputs. -/
theorem generateFilledTemplate_spec_witness :
    LLMService.generateFilledTemplate none ("tpl".toList) ("go".toList)
      = Except.error ("LLM Adapter is not initialized.".toList) ∧
    LLMService.generateFilledTemplate (some adapterOkSample) ("tpl".toList) ("go".toList)
      = Except.ok (jsTrim (" hi ".toList)) :=
  ⟨(generateFilledTemplate_spec none ("tpl".toList) ("go".toList)).1 rfl,
    ((generateFilledTemplate_spec (some adapterOkSample) ("tpl".toList)
        ("go".toList)).2 adapterOkSample ⟨true, some (" hi ".toList), none, ⟨0, 0, 0⟩⟩
      rfl rfl).2 rfl (by decide)⟩

/-- C8: a submit click received while the session is processing is a no-op
on the session state, and the concrete double-submit trace — submit, submit
while running, successful completion — performs exactly one generation call
and one output write. -/
theorem modal_submit_noop :
    (∀ st : TemplateModal.ModalState,
      st.status = ProcessingStatus.PROCESSING →
      TemplateModal.modalStep st TemplateModal.MEvent.submit = st) ∧
    TemplateModal.runModal idleReady
        [TemplateModal.MEvent.submit, TemplateModal.MEvent.submit,
          TemplateModal.MEvent.complete true]
      = { status := ProcessingStatus.IDLE, templateSelected := true
          gens := 1, writes := 1 } := by
  refine ⟨fun st h => ?_, by decide⟩
  simp [TemplateModal.modalStep, h]

/-- Witness for C8's no-op clause at a concrete processing state. -/
theorem modal_submit_noop_witness :
    TemplateModal.modalStep
        ⟨ProcessingStatus.PROCESSING, true, 1, 0⟩ TemplateModal.MEvent.submit
      = ⟨ProcessingStatus.PROCESSING, true, 1, 0⟩ :=
  modal_submit_noop.1 _ rfl

theorem vaultGet_add_ne (v : Vault) (p : Str) (n : VNode) (q : Str) (h : ¬ q = p) :
    vaultGet (vaultAdd v p n) q = vaultGet v q := by
  unfold vaultGet vaultAdd
  rw [List.find?_append]
  have hne : ¬ p = q := fun e => h e.symm
  have hsing : List.find? (fun e => e.1 = q) [(p, n)] = none := by
    simp [List.find?, hne]
  rw [hsing, Option.or_none]

theorem vaultGet_add_self (v : Vault) (p : Str) (n : VNode)
    (h : vaultGet v p = none) :
    vaultGet (vaultAdd v p n) p = some n := by
  unfold vaultGet vaultAdd at *
  have hf : List.find? (fun e => e.1 = p) v = none := by
    cases hfv : List.find? (fun e => e.1 = p) v with
    | none => rfl
    | some x => rw [hfv] at h; simp at h
  rw [List.find?_append, hf]
  simp [List.find?]

theorem append_cons_ne (l : Str) (c : Char) (t : Str) : ¬ (l ++ c :: t) = l := by
  intro h
  have hlen := congrArg List.length h
  simp [List.length_append] at hlen

/-- C7: `createFilledFile` computes the destination path as
`{folder}/{templateDisplayName}-{ISO timestamp with ':' and '.' replaced by
'-'}.{extension}` (see `filePathOf`); when a node already exists at that
exact path it raises the distinct already-exists error and writes nothing,
and otherwise it creates exactly that file with the given content, touching
no other path (folders resolved normally, i.e. the folder path holds a
folder or nothing). -/
theorem createFilledFile_spec
    (vault : Vault) (outputPath rootPath ext nowIso : Str)
    (tpl : Template) (content : Str)
    (hfolder : vaultGet vault (if ¬ outputPath = [] then outputPath else rootPath)
        = some VNode.vfolder
      ∨ vaultGet vault (if ¬ outputPath = [] then outputPath else rootPath) = none) :
    (∀ ex, vaultGet vault (filePathOf outputPath rootPath ext nowIso tpl) = some ex →
      FileService.createFilledFile vault outputPath rootPath ext nowIso tpl content
        = Except.error ("File already exists: ".toList
            ++ filePathOf outputPath rootPath ext nowIso tpl)) ∧
    (vaultGet vault (filePathOf outputPath rootPath ext nowIso tpl) = none →
      ∃ v', FileService.createFilledFile vault outputPath rootPath ext nowIso tpl content
          = Except.ok v' ∧
        vaultGet v' (filePathOf outputPath rootPath ext nowIso tpl)
          = some (VNode.vfile content) ∧
        ∀ q, ¬ q = filePathOf outputPath rootPath ext nowIso tpl →
          ¬ q = (if ¬ outputPath = [] then outputPath else rootPath) →
          vaultGet v' q = vaultGet vault q) := by
  have hne : ¬ filePathOf outputPath rootPath ext nowIso tpl
      = (if ¬ outputPath = [] then outputPath else rootPath) := by
    intro h
    have hlen := congrArg List.length h
    simp only [filePathOf, List.length_append] at hlen
    have h1 : ("/".toList : Str).length = 1 := rfl
    omega
  rcases hfolder with hf | hf
  · constructor
    · intro ex hex
      simp only [FileService.createFilledFile, hf]
      simp only [filePathOf] at hex
      rw [hex]
      simp [filePathOf]
    · intro hnone
      refine ⟨vaultAdd vault (filePathOf outputPath rootPath ext nowIso tpl)
          (VNode.vfile content), ?_, ?_, ?_⟩
      · simp only [FileService.createFilledFile, hf]
        simp only [filePathOf] at hnone ⊢
        rw [hnone]
      · exact vaultGet_add_self _ _ _ hnone
      · intro q hq1 _
        exact vaultGet_add_ne _ _ _ _ hq1
  · have hv1 : vaultGet
        (vaultAdd vault (if ¬ outputPath = [] then outputPath else rootPath)
          VNode.vfolder)
        (filePathOf outputPath rootPath ext nowIso tpl)
        = vaultGet vault (filePathOf outputPath rootPath ext nowIso tpl) :=
      vaultGet_add_ne _ _ _ _ hne
    constructor
    · intro ex hex
      simp only [FileService.createFilledFile, hf]
      simp only [filePathOf] at hex hv1
      rw [hv1, hex]
      simp [filePathOf]
    · intro hnone
      refine ⟨vaultAdd
          (vaultAdd vault (if ¬ outputPath = [] then outputPath else rootPath)
            VNode.vfolder)
          (filePathOf outputPath rootPath ext nowIso tpl) (VNode.vfile content),
        ?_, ?_, ?_⟩
      · simp only [FileService.createFilledFile, hf]
        simp only [filePathOf] at hnone hv1 ⊢
        rw [hv1, hnone]
      · exact vaultGet_add_self _ _ _ (hv1.trans hnone)
      · intro q hq1 hq2
        rw [vaultGet_add_ne _ _ _ _ hq1, vaultGet_add_ne _ _ _ _ hq2]

theorem cacheGet_cons (x : Str × Template) (l : Cache) (p : Str) :
    cacheGet (x :: l) p = if x.1 = p then some x.2 else cacheGet l p := by
  unfold cacheGet
  by_cases h : x.1 = p
  · rw [List.find?_cons_of_pos _ (by simp [h]), if_pos h]
    rfl
  · rw [List.find?_cons_of_neg _ (by simp [h]), if_neg h]

theorem cacheGet_set (c : Cache) (k : Str) (v : Template) (p : Str) :
    cacheGet (cacheSet c k v) p = if p = k then some v else cacheGet c p := by
  induction c with
  | nil =>
    by_cases hp : p = k
    · subst hp
      simp [cacheSet, cacheGet_cons]
    · have hk : ¬ k = p := fun e => hp e.symm
      simp [cacheSet, cacheGet_cons, hk, hp, cacheGet]
  | cons e rest ih =>
    by_cases he : e.1 = k
    · by_cases hp : p = k
      · subst hp
        simp [cacheSet, he, cacheGet_cons]
      · have hkp : ¬ k = p := fun h2 => hp h2.symm
        have hep : ¬ e.1 = p := he ▸ hkp
        simp [cacheSet, he, cacheGet_cons, hkp, hp, hep]
    · by_cases hep : e.1 = p
      · have hp : ¬ p = k := fun h2 => he (hep.trans h2)
        simp [cacheSet, he, cacheGet_cons, hep, hp]
      · simp [cacheSet, he, cacheGet_cons, hep, ih]

theorem cacheGet_cleanup (c : Cache) (seen : List Str) (p : Str) :
    cacheGet (cacheCleanup c seen) p
      = if p ∈ seen then cacheGet c p else none := by
  induction c with
  | nil => simp [cacheCleanup, cacheGet]
  | cons x rest ih =>
    by_cases hx : x.1 ∈ seen
    · by_cases hp : x.1 = p
      · subst hp
        have hclean : cacheCleanup (x :: rest) seen = x :: cacheCleanup rest seen := by
          simp [cacheCleanup, List.filter_cons, hx]
        rw [hclean, cacheGet_cons, if_pos rfl, if_pos hx, cacheGet_cons, if_pos rfl]
      · simp only [cacheCleanup, List.filter_cons] at ih ⊢
        simp [hx, cacheGet_cons, hp, ih]
    · by_cases hp : x.1 = p
      · subst hp
        simp only [cacheCleanup, List.filter_cons] at ih ⊢
        simp [hx, cacheGet_cons, ih]
      · simp only [cacheCleanup, List.filter_cons] at ih ⊢
        simp [hx, cacheGet_cons, hp, ih]

/-- Witness for C7 at a concrete vault, template and clock reading. -/
theorem createFilledFile_spec_witness :
    vaultGet outVault
        (if ¬ ("out".toList : Str) = [] then "out".toList else "/".toList)
      = some VNode.vfolder ∧
    vaultGet outVault
        (filePathOf ("out".toList) ("/".toList) ("md".toList) isoSample welcomeTpl)
      = none ∧
    ∃ v', FileService.createFilledFile outVault ("out".toList) ("/".toList)
        ("md".toList) isoSample welcomeTpl ("Hello".toList) = Except.ok v' ∧
      vaultGet v' (filePathOf ("out".toList) ("/".toList) ("md".toList) isoSample welcomeTpl)
        = some (VNode.vfile ("Hello".toList)) ∧
      ∀ q, ¬ q = filePathOf ("out".toList) ("/".toList) ("md".toList) isoSample welcomeTpl →
        ¬ q = (if ¬ ("out".toList : Str) = [] then "out".toList else "/".toList) →
        vaultGet v' q = vaultGet outVault q :=
  ⟨by decide, by decide,
    (createFilledFile_spec outVault ("out".toList) ("/".toList) ("md".toList)
        isoSample welcomeTpl ("Hello".toList) (Or.inl (by decide))).2 (by decide)⟩

theorem scanEntries_spec (l : List VEntry) (acc : List Str × Cache) :
    (TemplateManager.scanEntries l acc).1
        = acc.1 ++ (TemplateManager.validFiles l).map MTFile.path ∧
    ∀ p, cacheGet (TemplateManager.scanEntries l acc).2 p
        = (((TemplateManager.validFiles l).reverse.find?
              (fun f => f.path = p)).map TemplateManager.createTemplate).or
            (cacheGet acc.2 p) := by
  induction l, acc using TemplateManager.scanEntries.induct with
  | case1 acc =>
    simp [TemplateManager.scanEntries, TemplateManager.validFiles]
  | case2 f rest seen c h ih1 =>
    have hstep : TemplateManager.scanEntries (VEntry.file f :: rest) (seen, c)
        = TemplateManager.scanEntries rest
            (seen ++ [f.path], cacheSet c f.path (TemplateManager.createTemplate f)) := by
      simp [TemplateManager.scanEntries, h]
    have hvf : TemplateManager.validFiles (VEntry.file f :: rest)
        = f :: TemplateManager.validFiles rest := by
      simp [TemplateManager.validFiles, h]
    constructor
    · rw [hstep, ih1.1, hvf]
      simp [List.append_assoc]
    · intro p
      rw [hstep, ih1.2 p, cacheGet_set, hvf]
      simp only [List.reverse_cons, List.find?_append, Option.map_or, Option.or_assoc]
      by_cases hp : f.path = p
      · subst hp
        generalize List.find? (fun g => decide (g.path = f.path))
          (TemplateManager.validFiles rest).reverse = vr
        cases vr <;> simp
      · have hp2 : ¬ p = f.path := fun e => hp e.symm
        simp [List.find?, hp, hp2]
  | case3 f rest seen c h ih1 =>
    have hstep : TemplateManager.scanEntries (VEntry.file f :: rest) (seen, c)
        = TemplateManager.scanEntries rest (seen, c) := by
      simp [TemplateManager.scanEntries, h]
    have hvf : TemplateManager.validFiles (VEntry.file f :: rest)
        = TemplateManager.validFiles rest := by
      simp [TemplateManager.validFiles, h]
    constructor
    · rw [hstep, ih1.1, hvf]
    · intro p
      rw [hstep, ih1.2 p, hvf]
  | case4 cs rest acc ih2 ih1 =>
    constructor
    · simp only [TemplateManager.scanEntries]
      rw [ih1.1, ih2.1]
      simp [TemplateManager.validFiles, List.append_assoc]
    · intro p
      simp only [TemplateManager.scanEntries]
      rw [ih1.2 p, ih2.2 p]
      simp only [TemplateManager.validFiles, List.reverse_append, List.find?_append]
      generalize List.find? (fun g => decide (g.path = p))
        (TemplateManager.validFiles rest).reverse = vr
      generalize List.find? (fun g => decide (g.path = p))
        (TemplateManager.validFiles cs).reverse = vc
      cases vr <;> cases vc <;> simp

theorem isValidTemplate_eq_true_iff (f : MTFile) :
    TemplateManager.isValidTemplate f = true
      ↔ (f.extension = "md".toList ∧ "templates/".toList.isPrefixOf f.path = true) := by
  simp [TemplateManager.isValidTemplate, TemplateManager.isTemplate,
    TemplateManager.hasValidExtension, Bool.and_eq_true, decide_eq_true_eq]
  tauto

theorem validFiles_eq_filter (l : List VEntry) :
    TemplateManager.validFiles l = (allFiles l).filter TemplateManager.isValidTemplate := by
  induction l using allFiles.induct with
  | case1 => simp [TemplateManager.validFiles, allFiles]
  | case2 f rest ih =>
    by_cases h : TemplateManager.isValidTemplate f <;>
      simp [TemplateManager.validFiles, allFiles, List.filter_cons, h, ih]
  | case3 cs rest ih1 ih2 =>
    simp [TemplateManager.validFiles, allFiles, List.filter_append, ih1, ih2]

theorem scanTemplates_get (cs : List VEntry) (c : Cache) (p : Str) :
    cacheGet (TemplateManager.scanTemplates (some (VEntry.folder cs)) c) p
      = ((TemplateManager.validFiles cs).reverse.find?
          (fun f => f.path = p)).map TemplateManager.createTemplate := by
  have h := scanEntries_spec cs ([], c)
  simp only [TemplateManager.scanTemplates]
  rw [cacheGet_cleanup, h.1]
  by_cases hp : p ∈ (TemplateManager.validFiles cs).map MTFile.path
  · rw [if_pos (by simpa using hp), h.2 p]
    rcases List.mem_map.mp hp with ⟨f, hfmem, hfpath⟩
    have hsome : (List.find? (fun g => decide (g.path = p))
        (TemplateManager.validFiles cs).reverse).isSome :=
      List.find?_isSome.mpr ⟨f, List.mem_reverse.mpr hfmem, by simp [hfpath]⟩
    rcases Option.isSome_iff_exists.mp hsome with ⟨g, hg⟩
    rw [hg]
    rfl
  · rw [if_neg (by simpa using hp)]
    have hfind : List.find? (fun f => decide (f.path = p))
        (TemplateManager.validFiles cs).reverse = none := by
      rw [List.find?_eq_none]
      intro f hf
      simp only [decide_eq_true_eq]
      intro hpath
      exact hp (List.mem_map.mpr ⟨f, List.mem_reverse.mp hf, hpath⟩)
    rw [hfind]
    rfl

theorem find?_validFiles_some (cs : List VEntry) (p : Str) (f : MTFile)
    (h : List.find? (fun g => decide (g.path = p))
        (TemplateManager.validFiles cs).reverse = some f) :
    f ∈ allFiles cs ∧ TemplateManager.isValidTemplate f = true ∧ f.path = p := by
  have hmem : f ∈ TemplateManager.validFiles cs :=
    List.mem_reverse.mp (List.mem_of_find?_eq_some h)
  have hpath : f.path = p := by simpa using List.find?_some h
  rw [validFiles_eq_filter] at hmem
  exact ⟨(List.mem_filter.mp hmem).1, (List.mem_filter.mp hmem).2, hpath⟩

/-- C3 counterexample: with the templates root configured as `templates` and
the template extension configured as `txt`, the file `templates/a.txt` has
the configured extension and lies under the configured root, yet a scan of
the folder containing it (starting from an empty cache) adds no entry for
it: the code compares extensions against the fixed `md`, not the configured
extension. -/
theorem templateScan_ignores_config :
    (txtFile.extension = "txt".toList ∧
      "templates/".toList.isPrefixOf txtFile.path = true) ∧
    cacheGet (TemplateManager.scanTemplates
        (some (VEntry.folder [VEntry.file txtFile])) []) txtFile.path = none := by
  refine ⟨⟨rfl, by decide⟩, ?_⟩
  rw [scanTemplates_get]
  have hv : TemplateManager.isValidTemplate txtFile = false := by decide
  simp [TemplateManager.validFiles, hv]

/-- C3 (amended): a template scan over the folder at the configured path
adds or updates a cache entry for exactly those files in the walked tree
that pass the code's fixed validity test — extension equal to the fixed
string `md` and path starting with the fixed prefix `templates/` (the
configured template extension and configured templates root are not
consulted) — and afterwards deletes from the cache every previously known
path not seen in this pass; every surviving entry is the `Template` built
from a walked valid file with that path. -/
theorem templateScan_exact (cs : List VEntry) (c : Cache) (p : Str) :
    ((∃ t, cacheGet (TemplateManager.scanTemplates (some (VEntry.folder cs)) c) p
        = some t)
      ↔ ∃ f ∈ allFiles cs,
          (f.extension = "md".toList ∧ "templates/".toList.isPrefixOf f.path = true)
            ∧ f.path = p) ∧
    (∀ t, cacheGet (TemplateManager.scanTemplates (some (VEntry.folder cs)) c) p
        = some t →
      ∃ f ∈ allFiles cs, TemplateManager.isValidTemplate f = true ∧ f.path = p
        ∧ t = TemplateManager.createTemplate f) := by
  constructor
  · rw [scanTemplates_get]
    constructor
    · rintro ⟨t, ht⟩
      rcases Option.map_eq_some'.mp ht with ⟨f, hfind, hft⟩
      rcases find?_validFiles_some cs p f hfind with ⟨hmem, hval, hpath⟩
      exact ⟨f, hmem, (isValidTemplate_eq_true_iff f).mp hval, hpath⟩
    · rintro ⟨f, hmem, hprop, hpath⟩
      have hval : TemplateManager.isValidTemplate f = true :=
        (isValidTemplate_eq_true_iff f).mpr hprop
      have hmem2 : f ∈ (TemplateManager.validFiles cs).reverse := by
        rw [List.mem_reverse, validFiles_eq_filter]
        exact List.mem_filter.mpr ⟨hmem, hval⟩
      have hsome : (List.find? (fun g => decide (g.path = p))
          (TemplateManager.validFiles cs).reverse).isSome :=
        List.find?_isSome.mpr ⟨f, hmem2, by simp [hpath]⟩
      rcases Option.isSome_iff_exists.mp hsome with ⟨g, hg⟩
      exact ⟨TemplateManager.createTemplate g, by rw [hg]; rfl⟩
  · intro t ht
    rw [scanTemplates_get] at ht
    rcases Option.map_eq_some'.mp ht with ⟨f, hfind, hft⟩
    rcases find?_validFiles_some cs p f hfind with ⟨hmem, hval, hpath⟩
    exact ⟨f, hmem, hval, hpath, hft.symm⟩

/-- Witness for C3's amended theorem: scanning a folder holding
`templates/a.md` from an empty cache yields an entry at that path. -/
theorem templateScan_exact_witness :
    ∃ t, cacheGet (TemplateManager.scanTemplates
        (some (VEntry.folder [VEntry.file mdFileA])) []) mdFileA.path = some t :=
  (templateScan_exact [VEntry.file mdFileA] [] mdFileA.path).1.mpr
    ⟨mdFileA, by simp [allFiles], ⟨rfl, by decide⟩, rfl⟩

/-- C4 counterexample: three `getTemplates` calls at 10000, 14000 and 15001
(ms).  The second and third calls are 1001ms apart — less than the 5000ms
interval — yet return different template lists when the folder emptied
after the first call, because staleness is measured from the last rescan
(10000), not from the previous call. -/
theorem templateCache_staleness_cex :
    15001 - 14000 < TemplateManager.scanInterval ∧
    ¬ (TemplateManager.getTemplates
          ((TemplateManager.getTemplates
            ((TemplateManager.getTemplates ⟨[], 0⟩ 10000 lkA).2) 14000 lkEmpty).2)
          15001 lkEmpty).1
      = (TemplateManager.getTemplates
          ((TemplateManager.getTemplates ⟨[], 0⟩ 10000 lkA).2) 14000 lkEmpty).1 := by
  have hv : TemplateManager.isValidTemplate mdFileA = true := by decide
  constructor
  · decide
  · simp [TemplateManager.getTemplates, TemplateManager.updateTemplatesCacheIfNeeded,
      TemplateManager.scanTemplates, TemplateManager.scanEntries,
      TemplateManager.scanInterval, lkA, lkEmpty, hv, cacheSet, cacheCleanup,
      cacheValues, cacheGet]

/-- C4 (amended): a rescan occurs on a call exactly when `now − lastScanTime`
exceeds the 5000ms scan interval, where `lastScanTime` is the time of the
most recent rescan, not of the previous call.  Two consecutive calls both
within the interval of the last rescan return the identical mapping even
if the folder changed in between; and (with a monotonic clock) a call more
than the interval after the previous call always rescans, so a changed
folder is reflected then. -/
theorem templateCache_staleness (st : TemplateManager.TMState) (now : Nat)
    (lookup : Option VEntry) :
    (¬ TemplateManager.scanInterval < now - st.lastScanTime →
      TemplateManager.getTemplates st now lookup
        = (cacheValues st.templateCache, st)) ∧
    (TemplateManager.scanInterval < now - st.lastScanTime →
      TemplateManager.getTemplates st now lookup
        = (cacheValues (TemplateManager.scanTemplates lookup st.templateCache),
            ⟨TemplateManager.scanTemplates lookup st.templateCache, now⟩)) ∧
    (∀ t2 l2, now - st.lastScanTime ≤ TemplateManager.scanInterval →
      t2 - st.lastScanTime ≤ TemplateManager.scanInterval →
      (TemplateManager.getTemplates
          ((TemplateManager.getTemplates st now lookup).2) t2 l2).1
        = (TemplateManager.getTemplates st now lookup).1) ∧
    (∀ t2 l2, st.lastScanTime ≤ now → now ≤ t2 →
      TemplateManager.scanInterval < t2 - now →
      TemplateManager.getTemplates
          ((TemplateManager.getTemplates st now lookup).2) t2 l2
        = (cacheValues (TemplateManager.scanTemplates l2
              ((TemplateManager.getTemplates st now lookup).2).templateCache),
            ⟨TemplateManager.scanTemplates l2
              ((TemplateManager.getTemplates st now lookup).2).templateCache, t2⟩)) := by
  refine ⟨fun h => ?_, fun h => ?_, fun t2 l2 h1 h2 => ?_, fun t2 l2 hm h12 hgap => ?_⟩
  · simp [TemplateManager.getTemplates, TemplateManager.updateTemplatesCacheIfNeeded, h]
  · simp [TemplateManager.getTemplates, TemplateManager.updateTemplatesCacheIfNeeded, h]
  · have hn1 : ¬ TemplateManager.scanInterval < now - st.lastScanTime := Nat.not_lt.mpr h1
    have hn2 : ¬ TemplateManager.scanInterval < t2 - st.lastScanTime := Nat.not_lt.mpr h2
    simp [TemplateManager.getTemplates, TemplateManager.updateTemplatesCacheIfNeeded,
      hn1, hn2]
  · by_cases hscan : TemplateManager.scanInterval < now - st.lastScanTime
    · have e1 : (TemplateManager.getTemplates st now lookup).2
          = ⟨TemplateManager.scanTemplates lookup st.templateCache, now⟩ := by
        simp [TemplateManager.getTemplates, TemplateManager.updateTemplatesCacheIfNeeded,
          hscan]
      rw [e1]
      simp [TemplateManager.getTemplates, TemplateManager.updateTemplatesCacheIfNeeded,
        hgap]
    · have e1 : (TemplateManager.getTemplates st now lookup).2 = st := by
        simp [TemplateManager.getTemplates, TemplateManager.updateTemplatesCacheIfNeeded,
          hscan]
      rw [e1]
      have hlt : TemplateManager.scanInterval < t2 - st.lastScanTime := by
        have h1 : now - st.lastScanTime ≤ TemplateManager.scanInterval := Nat.not_lt.mp hscan
        omega
      simp [TemplateManager.getTemplates, TemplateManager.updateTemplatesCacheIfNeeded,
        hlt]

/-- Witness for C4's amended theorem: a call 2000ms after the last rescan
returns the cached (empty) mapping without rescanning, and a later call
8000ms after it rescans against the current folder. -/
theorem templateCache_staleness_witness :
    (¬ TemplateManager.scanInterval
        < 12000 - (⟨[], 10000⟩ : TemplateManager.TMState).lastScanTime) ∧
    TemplateManager.getTemplates ⟨[], 10000⟩ 12000 lkEmpty
      = (cacheValues ([] : Cache), (⟨[], 10000⟩ : TemplateManager.TMState)) ∧
    TemplateManager.getTemplates
        ((TemplateManager.getTemplates ⟨[], 10000⟩ 12000 lkEmpty).2) 20000 lkA
      = (cacheValues (TemplateManager.scanTemplates lkA
            ((TemplateManager.getTemplates ⟨[], 10000⟩ 12000 lkEmpty).2).templateCache),
          ⟨TemplateManager.scanTemplates lkA
            ((TemplateManager.getTemplates ⟨[], 10000⟩ 12000 lkEmpty).2).templateCache,
            20000⟩) :=
  ⟨by decide,
    (templateCache_staleness ⟨[], 10000⟩ 12000 lkEmpty).1 (by decide),
    (templateCache_staleness ⟨[], 10000⟩ 12000 lkEmpty).2.2.2 20000 lkA
      (by decide) (by decide) (by decide)⟩
